import Mathlib

/-!
A shallow embedding of the blackjack engine in src/blackjack.py
(classes Card, Deck, Hand, Player, Blackjack and the validate_game_state
decorator), with theorems checking the specification's claims against it.

Modelling conventions:
* Python floats carrying money and the penetration fraction are embedded
  as rationals.
* random.shuffle is embedded as an oracle shuffle : List Card → List Card
  stored inside the Deck; theorems that reshuffle assume it preserves length.
* Methods that Python aborts with GameError return Except GameError;
  executions that do not return normally — an unguarded runtime fault
  (list.pop or indexing on an empty list), an unbounded dealer-draw loop,
  or the RecursionError described next — are modelled as none of an Option.
* Python's Hand.get_value returns the pair (value, self.is_blackjack()),
  while Hand.is_blackjack evaluates self.get_value()[0] whenever the hand
  has exactly two cards; the two methods then re-enter each other without
  progress, so every get_value / is_blackjack / is_busted / is_done /
  str(hand) call on a two-card hand raises RecursionError.  The embedding
  models the pair of methods by an explicit-fuel recursion
  (get_value_fuel), whose result is none at every fuel on two-card hands
  and is stable from fuel 2 upwards everywhere else (get_value_fuel_stable);
  Hand.get_value takes that limit, and every caller propagates none.
* The contents of the GameEvent logs (Hand.moves, Player.round_events,
  timestamps, player names, list indices) are not recorded, but the hand
  valuations Python performs while building those events are modelled,
  because they crash on two-card hands: Hand.add_card logs
  str(self.get_value()[0]) on the grown hand, Player.update_stats renders
  str(hand) (get_status, which starts with get_value), and the RoundResult
  constructors render str of the dealer hand and of every player hand.
-/

namespace BJ

inductive Rank
  | r2 | r3 | r4 | r5 | r6 | r7 | r8 | r9 | r10 | jack | queen | king | ace
  deriving DecidableEq, Repr

inductive Suit
  | spades | clubs | hearts | diamonds
  deriving DecidableEq, Repr

structure Card where
  suit : Suit
  rank : Rank
  deriving DecidableEq, Repr

/-- Python Card.get_value: J, Q, K are worth 10, an ace 11, the rest their
numeral. -/
def Card.get_value (c : Card) : ℕ :=
  match c.rank with
  | .r2 => 2 | .r3 => 3 | .r4 => 4 | .r5 => 5 | .r6 => 6 | .r7 => 7
  | .r8 => 8 | .r9 => 9 | .r10 => 10 | .jack => 10 | .queen => 10
  | .king => 10 | .ace => 11

inductive GameResult
  | win | lose | push | surrender | blackjack
  deriving DecidableEq, Repr

inductive RoundState
  | notStarted | initialDeal | playerTurn | dealerTurn | complete
  deriving DecidableEq, Repr

/-- Python raises GameError with a message string; each distinct message in
blackjack.py becomes one constructor. -/
inductive GameError
  | noCards                  -- "No cards available"
  | noFunds                  -- "Player has no funds"
  | roundNotStarted          -- "Round hasn't started"
  | roundComplete            -- "Round is complete"
  | previousRoundNotComplete -- "Previous round not complete"
  | betOutOfRange            -- "Bet must be between ..."
  | betNotCurrency           -- "Bet must be in valid currency units ..."
  | insufficientFunds        -- "Insufficient funds for bet"
  deriving DecidableEq, Repr

structure BlackjackRules where
  deck_penetration : ℚ := 4/5
  max_splits : ℕ := 3
  allow_resplit_aces : Bool := false
  allow_double_after_split : Bool := true
  allow_surrender : Bool := true
  early_surrender : Bool := true
  insurance_offered : Bool := true
  even_money_offered : Bool := true
  min_bet : ℚ := 10
  max_bet : ℚ := 500
  number_of_decks : ℕ := 6
  blackjack_payout : ℚ := 3/2
  insurance_payout : ℚ := 2
  deriving DecidableEq, Repr

structure WagerStats where
  original_wagers : ℚ := 0
  additional_wagers : ℚ := 0
  insurance_wagers : ℚ := 0
  deriving DecidableEq, Repr

structure GameStatistics where
  hands_played : ℕ := 0
  hands_won : ℕ := 0
  hands_lost : ℕ := 0
  hands_pushed : ℕ := 0
  hands_surrendered : ℕ := 0
  blackjacks : ℕ := 0
  splits : ℕ := 0
  doubles : ℕ := 0
  insurances_taken : ℕ := 0
  insurances_won : ℕ := 0
  total_won : ℚ := 0
  total_lost : ℚ := 0
  biggest_win : ℚ := 0
  biggest_loss : ℚ := 0
  wagers : WagerStats := {}
  deriving DecidableEq, Repr

structure Hand where
  cards : List Card := []
  bet : ℚ := 0
  is_split : Bool := false
  is_doubled : Bool := false
  is_surrendered : Bool := false
  original_bet : ℚ := 0
  split_from_aces : Bool := false
  insurance_bet : ℚ := 0
  took_even_money : Bool := false
  deriving DecidableEq, Repr

/-- The sum over the non-ace cards of Card.get_value, the first line of
Python Hand.get_value (and of Hand.is_soft). -/
def Hand.non_ace_value (h : Hand) : ℕ :=
  ((h.cards.filter (fun c => !decide (c.rank = Rank.ace))).map Card.get_value).sum

/-- The count of aces in the hand, the second line of Python Hand.get_value
(and of Hand.is_soft). -/
def Hand.aces (h : Hand) : ℕ :=
  (h.cards.filter (fun c => decide (c.rank = Rank.ace))).length

/-- The numeric component of Python Hand.get_value: all aces low, then one
ace promoted by 10 when that stays within 21. -/
def Hand.value (h : Hand) : ℕ :=
  let v := h.non_ace_value + h.aces
  if 0 < h.aces ∧ v + 10 ≤ 21 then v + 10 else v

/-- The mutual recursion of Python Hand.get_value and Hand.is_blackjack,
with explicit fuel consumed at each re-entry.  get_value computes the
numeric value, then evaluates is_blackjack for the returned pair;
is_blackjack short-circuits to False unless the hand has exactly two
cards, and otherwise re-enters get_value for its value conjunct.  none is
an execution that never returns (Python's RecursionError). -/
def get_value_fuel : ℕ → Hand → Option (ℕ × Bool)
  | 0, _ => none
  | f + 1, h =>
    let bj : Option Bool :=
      if h.cards.length = 2 then
        match get_value_fuel f h with
        | none => none
        | some gv =>
          some (decide (gv.1 = 21) && !h.is_split && !h.took_even_money)
      else some false
    match bj with
    | none => none
    | some b => some (h.value, b)

/-- Python Hand.get_value, as the limit of get_value_fuel: on a two-card
hand the recursion makes no progress and the result is none at every
fuel; on any other hand the is_blackjack conjunct short-circuits and the
result is stable from fuel 2 (get_value_fuel_stable), so fuel 2 computes
the limit. -/
def Hand.get_value (h : Hand) : Option (ℕ × Bool) :=
  get_value_fuel 2 h

/-- Python Hand.is_blackjack as an entry point: two cards make it
evaluate self.get_value()[0], which never returns (none); any other
length short-circuits the conjunction to False. -/
def Hand.is_blackjack (h : Hand) : Option Bool :=
  if h.cards.length = 2 then
    match h.get_value with
    | none => none
    | some gv => some (decide (gv.1 = 21) && !h.is_split && !h.took_even_money)
  else some false

/-- Python Hand.is_busted: get_value()[0] above 21; the get_value call
raises on two-card hands. -/
def Hand.is_busted (h : Hand) : Option Bool :=
  match h.get_value with
  | none => none
  | some gv => some (decide (21 < gv.1))

/-- Python Hand.is_done: the disjunction short-circuits left to right, so
the leading is_busted() (and then is_blackjack()) call raises on two-card
hands before the flag disjuncts are reached. -/
def Hand.is_done (h : Hand) : Option Bool :=
  match h.is_busted with
  | none => none
  | some true => some true
  | some false =>
    match h.is_blackjack with
    | none => none
    | some bj =>
      some (bj || h.is_surrendered || h.took_even_money ||
        (h.is_doubled && decide (2 < h.cards.length)) ||
        (h.split_from_aces && decide (1 < h.cards.length)))

/-- Python Hand.is_soft, written exactly as in the source: aces present
and non_ace_value + aces - 1 + 11 at most 21.  It performs no get_value
call, so it always returns. -/
def Hand.is_soft (h : Hand) : Bool :=
  decide (0 < h.aces) && decide (h.non_ace_value + h.aces - 1 + 11 ≤ 21)

/-- Python Hand.add_card: refuse when the hand is done, otherwise append
the card and build the move GameEvent, whose result field evaluates
str(self.get_value()[0]) on the grown hand — raising whenever the hand
has just reached two cards.  The event contents are not recorded, only
that valuation call. -/
def Hand.add_card (h : Hand) (c : Card) : Option (Bool × Hand) :=
  match h.is_done with
  | none => none
  | some true => some (false, h)
  | some false =>
    let h1 := { h with cards := h.cards ++ [c] }
    match h1.get_value with
    | none => none
    | some _ => some (true, h1)

/-- Python Hand.can_split. -/
def Hand.can_split (h : Hand) (rules : BlackjackRules) : Bool :=
  match h.cards with
  | [c0, c1] =>
    if !(decide (c0.rank = c1.rank) && !h.is_doubled && !h.is_surrendered) then
      false
    else if decide (c0.rank = Rank.ace) then
      !h.is_split || rules.allow_resplit_aces
    else
      true
  | _ => false

/-- Python Hand.can_double. -/
def Hand.can_double (h : Hand) (rules : BlackjackRules) : Bool :=
  decide (h.cards.length = 2) && !h.is_doubled && !h.is_surrendered &&
    (!h.is_split || rules.allow_double_after_split)

/-- Python Hand.can_surrender. -/
def Hand.can_surrender (h : Hand) (rules : BlackjackRules) : Bool :=
  rules.allow_surrender && decide (h.cards.length = 2) && !h.is_split &&
    !h.is_doubled && !h.is_surrendered

/-- Python Hand.can_take_even_money: the conjunction short-circuits, so
is_blackjack() is evaluated (and raises on a two-card hand) only when
even money is offered. -/
def Hand.can_take_even_money (h : Hand) (rules : BlackjackRules)
    (dealer_upcard : Card) : Option Bool :=
  if !rules.even_money_offered then some false
  else
    match h.is_blackjack with
    | none => none
    | some bj =>
      some (bj && decide (dealer_upcard.rank = Rank.ace) && !h.took_even_money)

/-- The suit list of Deck.reset. -/
def allSuits : List Suit := [.spades, .clubs, .hearts, .diamonds]

/-- The rank list of Deck.reset. -/
def allRanks : List Rank :=
  [.r2, .r3, .r4, .r5, .r6, .r7, .r8, .r9, .r10, .jack, .queen, .king, .ace]

/-- One 52-card deck, in the suit-major order of the Deck.reset
comprehension. -/
def oneDeck : List Card :=
  allSuits.foldr (fun s acc => allRanks.map (fun r => ⟨s, r⟩) ++ acc) []

/-- The unshuffled n-deck pile built by Deck.reset. -/
def freshCards : ℕ → List Card
  | 0 => []
  | n + 1 => freshCards n ++ oneDeck

structure Deck where
  rules : BlackjackRules
  shuffle : List Card → List Card
  cards : List Card
  discard_pile : List Card

/-- Python Deck.reset: clear both piles, rebuild the full shoe and shuffle
it (the log line is omitted). -/
def Deck.reset (d : Deck) : Deck :=
  { d with cards := d.shuffle (freshCards d.rules.number_of_decks),
           discard_pile := [] }

/-- The final three lines of Python Deck.draw: pop the last undealt card
and append it to the discard pile; none is Python's IndexError on an empty
pop. -/
def Deck.popDraw (d : Deck) : Option (Card × Deck) :=
  match d.cards.getLast? with
  | none => none
  | some c =>
    some (c, { d with cards := d.cards.dropLast,
                      discard_pile := d.discard_pile ++ [c] })

/-- Python Deck.draw.  The outer none is a crashed execution, the inner
none is Python's None (shoe exhausted). -/
def Deck.draw (d : Deck) : Option (Option Card × Deck) :=
  if d.cards.isEmpty then
    let total := d.cards.length + d.discard_pile.length
    if (d.discard_pile.length : ℚ) < (total : ℚ) * (1 - d.rules.deck_penetration) then
      match d.reset.popDraw with
      | none => none
      | some (c, d1) => some (some c, d1)
    else
      some (none, d)
  else
    match d.popDraw with
    | none => none
    | some (c, d1) => some (some c, d1)

/-- Python round(q, 2), used by the bet-validation checks: the nearest
2-decimal amount. -/
def roundToCents (q : ℚ) : ℚ :=
  (round (q * 100) : ℤ) / 100

structure Player where
  bankroll : ℚ
  hands : List Hand := [{}]
  stats : GameStatistics := {}
  deriving DecidableEq, Repr

/-- Python Player._validate_bet. -/
def Player.validate_bet (p : Player) (amount : ℚ) : Bool :=
  decide (0 < amount) && decide (amount = roundToCents amount) &&
    decide (amount ≤ p.bankroll)

/-- Python Player.place_bet; none is the IndexError on hands[0] when the
hand list is empty (the bet GameEvent is omitted). -/
def Player.place_bet (p : Player) (amount : ℚ) : Option (Bool × Player) :=
  if !(p.validate_bet amount) then some (false, p)
  else
    match p.hands with
    | [] => none
    | h0 :: rest =>
      some (true,
        { p with
          bankroll := p.bankroll - amount,
          hands := { h0 with bet := amount, original_bet := amount } :: rest,
          stats := { p.stats with wagers := { p.stats.wagers with
            original_wagers := p.stats.wagers.original_wagers + amount } } })

/-- Python Player.reset_hands (the round_events reset is omitted). -/
def Player.reset_hands (p : Player) : Player :=
  { p with hands := [{}] }

/-- Python Player.update_stats.  The stat counters of the matched branch
are updated first; the round_events append then renders
player_cards=str(hand), whose get_status starts with get_value — so on a
two-card hand the call raises there, before hands_played is incremented
(the mutations made up to the raise survive on the Python object, but a
crashed call yields no final state here, hence none).  The event contents
and the hands.index lookup are not recorded. -/
def Player.update_stats (p : Player) (result : GameResult) (amount : ℚ)
    (hand : Hand) : Option Player :=
  let net_win : ℚ :=
    if 0 < amount then amount - hand.original_bet else -hand.original_bet
  let s := p.stats
  let s1 :=
    match result with
    | .win =>
      { s with hands_won := s.hands_won + 1,
               total_won := s.total_won + net_win,
               biggest_win := max s.biggest_win net_win }
    | .lose =>
      { s with hands_lost := s.hands_lost + 1,
               total_lost := s.total_lost + hand.original_bet,
               biggest_loss := max s.biggest_loss hand.original_bet }
    | .blackjack =>
      { s with hands_won := s.hands_won + 1,
               blackjacks := s.blackjacks + 1,
               total_won := s.total_won + net_win,
               biggest_win := max s.biggest_win net_win }
    | .surrender =>
      { s with hands_surrendered := s.hands_surrendered + 1,
               total_lost := s.total_lost + hand.original_bet * (1/2) }
    | .push =>
      { s with hands_pushed := s.hands_pushed + 1 }
  match hand.get_value with
  | none => none
  | some _ => some { p with stats := { s1 with hands_played := s1.hands_played + 1 } }

/-- Python RoundResult; the dealer and player hand snapshots are kept as
hands rather than rendered strings, and round_events is omitted. -/
structure RoundResult where
  hand_results : List (GameResult × ℚ)
  total_win_loss : ℚ
  insurance_result : Option ℚ
  dealer_hand : Hand
  player_hands : List Hand
  deriving DecidableEq, Repr

/-- The state of a Python Blackjack object. -/
structure Game where
  rules : BlackjackRules
  deck : Deck
  player : Player
  dealer_hand : Hand
  round_state : RoundState

/-- The decorated method names that validate_game_state can see. -/
inductive FuncName
  | start_round | hit | double_down | split | surrender | place_insurance
  | take_even_money | finish_round | play_round
  deriving DecidableEq, Repr

/-- The checks of the Python validate_game_state decorator; some e means
the wrapper raises e, none means the wrapped method body runs. -/
def validate_game_state (g : Game) (f : FuncName) : Option GameError :=
  if g.deck.cards.isEmpty && g.deck.discard_pile.isEmpty then some .noCards
  else if decide (g.player.bankroll ≤ 0) then some .noFunds
  else if decide (f = .start_round) then none
  else if decide (g.round_state = .notStarted) &&
      !(decide (f = .play_round) || decide (f = .start_round)) then
    some .roundNotStarted
  else if decide (g.round_state = .complete) &&
      !(decide (f = .play_round) || decide (f = .start_round)) then
    some .roundComplete
  else none

/-- Python Blackjack.get_dealer_upcard; none is the IndexError on an empty
dealer hand. -/
def Game.get_dealer_upcard (g : Game) : Option Card :=
  g.dealer_hand.cards.head?

/-- Replace player hand number i, the embedding of Python's in-place
mutation of a hand reached through self.player.hands. -/
def Game.setHand (g : Game) (i : ℕ) (h : Hand) : Game :=
  { g with player := { g.player with hands := g.player.hands.set i h } }

/-- Python Blackjack.hit.  The leading is_done() call and the add_card
call can both raise (two-card hands); the success GameEvent renders the
grown hand, which add_card's own valuation already gates. -/
def Game.hit (g : Game) (i : ℕ) : Option (Except GameError (Bool × Game)) :=
  match validate_game_state g .hit with
  | some e => some (.error e)
  | none =>
    match g.player.hands[i]? with
    | none => none
    | some hand =>
      match hand.is_done with
      | none => none
      | some true => some (.ok (false, g))
      | some false =>
        match g.deck.draw with
        | none => none
        | some (none, d) => some (.ok (false, { g with deck := d }))
        | some (some c, d) =>
          match hand.add_card c with
          | none => none
          | some r => some (.ok (r.1, ({ g with deck := d }).setHand i r.2))

/-- Python Blackjack.double_down: debit the bet, double it, flag the hand,
bump the statistics, then call hit (whose decorator runs again on the
debited bankroll, and whose is_done() raises on the two-card hand that
can_double just required).  The double GameEvent is not recorded. -/
def Game.double_down (g : Game) (i : ℕ) :
    Option (Except GameError (Bool × Game)) :=
  match validate_game_state g .double_down with
  | some e => some (.error e)
  | none =>
    match g.player.hands[i]? with
    | none => none
    | some hand =>
      if !(hand.can_double g.rules) || decide (g.player.bankroll < hand.bet) then
        some (.ok (false, g))
      else
        let hand1 := { hand with bet := hand.bet * 2, is_doubled := true }
        let p1 :=
          { g.player with
            bankroll := g.player.bankroll - hand.bet,
            hands := g.player.hands.set i hand1,
            stats := { g.player.stats with
              doubles := g.player.stats.doubles + 1,
              wagers := { g.player.stats.wagers with
                additional_wagers :=
                  g.player.stats.wagers.additional_wagers + hand.original_bet } } }
        Game.hit { g with player := p1 } i

/-- Python Blackjack.split.  The original hand is mutated (second card
popped, split flags set) before the two draws, exactly as in the source,
so a failed first draw returns false with those mutations kept; when the
first draw succeeds, add_card on the now two-card original raises
(its move-log valuation), so the second draw is never reached. -/
def Game.split (g : Game) (i : ℕ) : Option (Except GameError (Bool × Game)) :=
  match validate_game_state g .split with
  | some e => some (.error e)
  | none =>
    if decide (g.rules.max_splits + 1 ≤ g.player.hands.length) then
      some (.ok (false, g))
    else
      match g.player.hands[i]? with
      | none => none
      | some original =>
        if !(original.can_split g.rules) then some (.ok (false, g))
        else if decide (g.player.bankroll < original.original_bet) then
          some (.ok (false, g))
        else
          match original.cards.getLast? with
          | none => none
          | some c1 =>
            match Hand.add_card
                { bet := original.original_bet,
                  original_bet := original.original_bet, is_split := true } c1 with
            | none => none
            | some rn =>
              let new1 := rn.2
              let orig1 := { original with cards := original.cards.dropLast }
              match orig1.cards.head? with
              | none => none
              | some c0 =>
                let isAces := decide (c0.rank = Rank.ace)
                let orig2 :=
                  if isAces then { orig1 with split_from_aces := true } else orig1
                let new2 :=
                  if isAces then { new1 with split_from_aces := true } else new1
                let orig3 := { orig2 with is_split := true }
                let g1 := g.setHand i orig3
                match g1.deck.draw with
                | none => none
                | some (none, d) => some (.ok (false, { g1 with deck := d }))
                | some (some cA, d) =>
                  match orig3.add_card cA with
                  | none => none
                  | some ro =>
                    let orig4 := ro.2
                    let g2 := ({ g1 with deck := d }).setHand i orig4
                    match g2.deck.draw with
                    | none => none
                    | some (none, d2) => some (.ok (false, { g2 with deck := d2 }))
                    | some (some cB, d2) =>
                      match new2.add_card cB with
                      | none => none
                      | some rb =>
                        let new3 := rb.2
                        let p := g2.player
                        let p1 :=
                          { p with
                            hands := p.hands.take (i + 1) ++ [new3] ++ p.hands.drop (i + 1),
                            bankroll := p.bankroll - orig4.bet,
                            stats := { p.stats with
                              splits := p.stats.splits + 1,
                              wagers := { p.stats.wagers with
                                additional_wagers :=
                                  p.stats.wagers.additional_wagers + orig4.original_bet } } }
                        some (.ok (true, { g2 with deck := d2, player := p1 }))

/-- Python Blackjack.surrender: flag the hand, credit half the bet and
record the surrender in the statistics, eagerly.  can_surrender requires
exactly two cards, so the update_stats call then renders a two-card hand
and raises. -/
def Game.surrender (g : Game) (i : ℕ) :
    Option (Except GameError ((Bool × ℚ) × Game)) :=
  match validate_game_state g .surrender with
  | some e => some (.error e)
  | none =>
    match g.player.hands[i]? with
    | none => none
    | some hand =>
      if !(hand.can_surrender g.rules) then some (.ok ((false, 0), g))
      else
        let hand1 := { hand with is_surrendered := true }
        let amount : ℚ := hand1.bet * (1/2)
        let p1 := { g.player with
          bankroll := g.player.bankroll + amount,
          hands := g.player.hands.set i hand1 }
        match p1.update_stats .surrender amount hand1 with
        | none => none
        | some p2 => some (.ok ((true, amount), { g with player := p2 }))

/-- Python Blackjack.place_insurance. -/
def Game.place_insurance (g : Game) (i : ℕ) :
    Option (Except GameError (Bool × Game)) :=
  match validate_game_state g .place_insurance with
  | some e => some (.error e)
  | none =>
    match g.player.hands[i]? with
    | none => none
    | some hand =>
      if !g.rules.insurance_offered then some (.ok (false, g))
      else
        match g.get_dealer_upcard with
        | none => none
        | some up =>
          if !decide (up.rank = Rank.ace) then some (.ok (false, g))
          else
            let amount := hand.original_bet * (1/2)
            if decide (g.player.bankroll < amount) then some (.ok (false, g))
            else
              some (.ok (true,
                { g with player := { g.player with
                  bankroll := g.player.bankroll - amount,
                  hands := g.player.hands.set i { hand with insurance_bet := amount },
                  stats := { g.player.stats with
                    insurances_taken := g.player.stats.insurances_taken + 1,
                    wagers := { g.player.stats.wagers with
                      insurance_wagers := g.player.stats.wagers.insurance_wagers + amount } } } }))

/-- Python Blackjack.handle_insurance_payout; the dealer-blackjack test
raises on the (invariably two-card) dealer hand. -/
def Game.handle_insurance_payout (g : Game) (i : ℕ) :
    Option (Option ℚ × Game) :=
  match g.player.hands[i]? with
  | none => none
  | some hand =>
    if decide (hand.insurance_bet = 0) then some (none, g)
    else
      match g.dealer_hand.is_blackjack with
      | none => none
      | some true =>
        let payout := hand.insurance_bet * (1 + g.rules.insurance_payout)
        some (some payout,
          { g with player := { g.player with
            bankroll := g.player.bankroll + payout,
            stats := { g.player.stats with
              insurances_won := g.player.stats.insurances_won + 1 } } })
      | some false => some (some 0, g)

/-- Python Blackjack.take_even_money; can_take_even_money's is_blackjack
conjunct raises on two-card hands whenever even money is offered. -/
def Game.take_even_money (g : Game) (i : ℕ) :
    Option (Except GameError ((Bool × ℚ) × Game)) :=
  match validate_game_state g .take_even_money with
  | some e => some (.error e)
  | none =>
    match g.player.hands[i]? with
    | none => none
    | some hand =>
      match g.get_dealer_upcard with
      | none => none
      | some up =>
        match hand.can_take_even_money g.rules up with
        | none => none
        | some false => some (.ok ((false, 0), g))
        | some true =>
          let hand1 := { hand with took_even_money := true }
          let payout : ℚ := hand1.bet * 2
          let p1 := { g.player with
            bankroll := g.player.bankroll + payout,
            hands := g.player.hands.set i hand1 }
          match p1.update_stats .win payout hand1 with
          | none => none
          | some p2 => some (.ok ((true, payout), { g with player := p2 }))

/-- The while-loop of Python Blackjack.play_dealer_hand, with explicit
fuel; none is an execution that never returns (fuel exhaustion, a crashed
draw, or the get_value RecursionError on a two-card dealer hand), some
false a starved draw, some true a completed dealer hand. -/
def Game.dealer_loop : ℕ → Game → Option (Bool × Game)
  | 0, _ => none
  | fuel + 1, g =>
    match g.dealer_hand.get_value with
    | none => none
    | some gv =>
      let value := gv.1
      let soft := g.dealer_hand.is_soft
      if decide (17 < value) then some (true, g)
      else if decide (value = 17) && !soft then some (true, g)
      else
        match g.deck.draw with
        | none => none
        | some (none, d) => some (false, { g with deck := d })
        | some (some c, d) =>
          match g.dealer_hand.add_card c with
          | none => none
          | some r =>
            Game.dealer_loop fuel { g with deck := d, dealer_hand := r.2 }

/-- Python Blackjack.play_dealer_hand: enter DealerTurn, then run the draw
loop. -/
def Game.play_dealer_hand (fuel : ℕ) (g : Game) : Option (Bool × Game) :=
  Game.dealer_loop fuel { g with round_state := .dealerTurn }

/-- Python Blackjack.resolve_hand.  The surrendered early return is
reached before any valuation; past it, the two get_value calls raise
whenever the player or the dealer hand has exactly two cards. -/
def Game.resolve_hand (g : Game) (hand : Hand) : Option (GameResult × ℚ) :=
  if hand.is_surrendered then some (.surrender, hand.bet * (1/2))
  else
    match hand.get_value with
    | none => none
    | some pgv =>
      match g.dealer_hand.get_value with
      | none => none
      | some dgv =>
        let pv := pgv.1
        let pbj := pgv.2
        let dv := dgv.1
        let dbj := dgv.2
        if decide (21 < pv) then some (.lose, 0)
        else if decide (21 < dv) then some (.win, hand.bet * 2)
        else if pbj && !hand.is_split && !dbj then
          some (.blackjack, hand.bet * (1 + g.rules.blackjack_payout))
        else if dbj && !(pbj && !hand.is_split) then some (.lose, 0)
        else if pbj && dbj && !hand.is_split then some (.push, hand.bet)
        else if decide (dv < pv) then some (.win, hand.bet * 2)
        else if decide (pv < dv) then some (.lose, 0)
        else some (.push, hand.bet)

/-- One iteration of the hand loop in Python Blackjack.handle_dead_hand,
folding (player, results, total_win_loss) over the hands; the is_done,
resolve_hand and update_stats calls can each raise. -/
def Game.deadStep (g : Game) (acc : Player × List (GameResult × ℚ) × ℚ)
    (hand : Hand) : Option (Player × List (GameResult × ℚ) × ℚ) :=
  let p := acc.1
  let res := acc.2.1
  let tot := acc.2.2
  match hand.is_done with
  | none => none
  | some d =>
    if !d then
      let p1 := { p with bankroll := p.bankroll + hand.bet }
      match p1.update_stats .push hand.bet hand with
      | none => none
      | some p2 => some (p2, res ++ [(.push, hand.bet)], tot)
    else
      match g.resolve_hand hand with
      | none => none
      | some ra =>
        let p1 := { p with bankroll := p.bankroll + ra.2 }
        match p1.update_stats ra.1 ra.2 hand with
        | none => none
        | some p2 => some (p2, res ++ [ra], tot + (ra.2 - hand.original_bet))

/-- The RoundResult construction shared by handle_dead_hand and
finish_round: its dealer_hand and player_hands fields are str renderings,
so building it performs a get_value on the dealer hand and on every
player hand, each of which raises on two cards. -/
def Game.buildRoundResult (g : Game) (out : Player × List (GameResult × ℚ) × ℚ) :
    Option (RoundResult × Game) :=
  match g.dealer_hand.get_value with
  | none => none
  | some _ =>
    match g.player.hands.mapM Hand.get_value with
    | none => none
    | some _ =>
      let g1 := { g with player := out.1, round_state := .complete }
      some (⟨out.2.1, out.2.2, none, g1.dealer_hand, g1.player.hands⟩, g1)

/-- Python Blackjack.handle_dead_hand: undone hands get their bet back as
a Push, done hands resolve normally; the round becomes Complete.  Each
loop iteration and the final RoundResult rendering can raise. -/
def Game.handle_dead_hand (g : Game) : Option (RoundResult × Game) :=
  match g.player.hands.foldlM g.deadStep (g.player, [], 0) with
  | none => none
  | some out => g.buildRoundResult out

/-- One iteration of the resolution loop in Python Blackjack.finish_round:
hands that took even money are skipped, the rest are resolved, paid and
recorded; resolve_hand and update_stats can raise. -/
def Game.finishStep (g : Game) (acc : Player × List (GameResult × ℚ) × ℚ)
    (hand : Hand) : Option (Player × List (GameResult × ℚ) × ℚ) :=
  if hand.took_even_money then some acc
  else
    match g.resolve_hand hand with
    | none => none
    | some ra =>
      let p1 := { acc.1 with bankroll := acc.1.bankroll + ra.2 }
      match p1.update_stats ra.1 ra.2 hand with
      | none => none
      | some p2 => some (p2, acc.2.1 ++ [ra], acc.2.2 + (ra.2 - hand.original_bet))

/-- The resolution loop and RoundResult construction at the end of Python
Blackjack.finish_round. -/
def Game.finish_resolve (g : Game) : Option (RoundResult × Game) :=
  match g.player.hands.foldlM g.finishStep (g.player, [], 0) with
  | none => none
  | some out => g.buildRoundResult out

/-- Python's all(hand.is_done() for hand in hands): sequential, stops at
the first False, and propagates the first raising is_done() call. -/
def allDone : List Hand → Option Bool
  | [] => some true
  | h :: t =>
    match h.is_done with
    | none => none
    | some false => some false
    | some true => allDone t

/-- Python Blackjack.finish_round.  The all(...) generator raises as soon
as it reaches a two-card hand, and the dealer stage raises on the
two-card dealer hand, so on the program's reachable states this method
never completes. -/
def Game.finish_round (fuel : ℕ) (g : Game) :
    Option (Except GameError (RoundResult × Game)) :=
  match validate_game_state g .finish_round with
  | some e => some (.error e)
  | none =>
    match allDone g.player.hands with
    | none => none
    | some all_hands_resolved =>
      if !all_hands_resolved then
        match g.play_dealer_hand fuel with
        | none => none
        | some (false, g1) =>
          match g1.handle_dead_hand with
          | none => none
          | some rg => some (.ok rg)
        | some (true, g1) =>
          match g1.finish_resolve with
          | none => none
          | some rg => some (.ok rg)
      else
        match g.finish_resolve with
        | none => none
        | some rg => some (.ok rg)

/-- One iteration of the dealing loop in Python
Blackjack.deal_initial_cards: draw a player card then a dealer card, fail
(returning false) if either came back None, otherwise add them to the
first player hand and the dealer hand.  On the second iteration each
add_card grows a one-card hand to two cards, whose move-log valuation
raises — so with a working shoe the deal never completes. -/
def Game.deal_round_step (g : Game) : Option (Bool × Game) :=
  match g.deck.draw with
  | none => none
  | some (pc, d1) =>
    match d1.draw with
    | none => none
    | some (dc, d2) =>
      let g2 := { g with deck := d2 }
      match pc, dc with
      | some pcard, some dcard =>
        match g2.player.hands with
        | [] => none
        | h0 :: rest =>
          match h0.add_card pcard with
          | none => none
          | some rp =>
            match g2.dealer_hand.add_card dcard with
            | none => none
            | some rd =>
              some (true,
                { g2 with
                  player := { g2.player with hands := rp.2 :: rest },
                  dealer_hand := rd.2 })
      | _, _ => some (false, g2)

/-- Python Blackjack.deal_initial_cards: reset the hands, run the dealing
loop twice, then enter InitialDeal. -/
def Game.deal_initial_cards (g : Game) : Option (Bool × Game) :=
  let g0 := { g with player := g.player.reset_hands, dealer_hand := {} }
  match g0.deal_round_step with
  | none => none
  | some (false, g1) => some (false, g1)
  | some (true, g1) =>
    match g1.deal_round_step with
    | none => none
    | some (false, g2) => some (false, g2)
    | some (true, g2) => some (true, { g2 with round_state := .initialDeal })

/-- Python Blackjack.start_round. -/
def Game.start_round (g : Game) (bet_amount : ℚ) :
    Option (Except GameError (Bool × Game)) :=
  match validate_game_state g .start_round with
  | some e => some (.error e)
  | none =>
    if !decide (g.round_state = .notStarted) then
      some (.error .previousRoundNotComplete)
    else if decide (bet_amount < g.rules.min_bet) ||
        decide (g.rules.max_bet < bet_amount) then
      some (.error .betOutOfRange)
    else if !decide (bet_amount = roundToCents bet_amount) then
      some (.error .betNotCurrency)
    else
      match g.player.place_bet bet_amount with
      | none => none
      | some (false, _) => some (.error .insufficientFunds)
      | some (true, p1) =>
        match Game.deal_initial_cards { g with player := p1 } with
        | none => none
        | some (false, g1) => some (.ok (false, g1))
        | some (true, g1) => some (.ok (true, { g1 with round_state := .playerTurn }))

/-- The insurance-settlement pass of Python Blackjack.play_round: pay out
every hand that staked insurance. -/
def Game.insurance_pass (g : Game) : Option Game :=
  (List.range g.player.hands.length).foldlM
    (fun acc i =>
      match acc.player.hands[i]? with
      | none => none
      | some h =>
        if decide (0 < h.insurance_bet) then
          (acc.handle_insurance_payout i).map (·.2)
        else some acc)
    g

/-- Python Blackjack.play_round. -/
def Game.play_round (fuel : ℕ) (g : Game) (bet_amount : ℚ) :
    Option (Except GameError (RoundResult × Game)) :=
  match validate_game_state g .play_round with
  | some e => some (.error e)
  | none =>
    match g.start_round bet_amount with
    | none => none
    | some (.error e) => some (.error e)
    | some (.ok (false, g1)) =>
      match g1.handle_dead_hand with
      | none => none
      | some rg => some (.ok rg)
    | some (.ok (true, g1)) =>
      match g1.get_dealer_upcard with
      | none => none
      | some up =>
        let doIns := g1.rules.insurance_offered && decide (up.rank = Rank.ace) &&
          g1.player.hands.any (fun h => decide (0 < h.insurance_bet))
        match (if doIns then g1.insurance_pass else some g1) with
        | none => none
        | some g2 =>
          match g2.dealer_hand.is_blackjack with
          | none => none
          | some b => if b then g2.finish_round fuel else g2.finish_round fuel

/-! ### Closed forms of the fuelled valuation -/

theorem get_value_fuel_none (h : Hand) (hl : h.cards.length = 2) :
    ∀ f, get_value_fuel f h = none := by
  intro f
  induction f with
  | zero => rfl
  | succ f ih => simp [get_value_fuel, hl, ih]

theorem get_value_fuel_some (h : Hand) (hl : ¬ h.cards.length = 2) (f : ℕ) :
    get_value_fuel (f + 1) h = some (h.value, false) := by
  simp [get_value_fuel, hl]

/-- Fuel 2 already computes the limit of the valuation recursion. -/
theorem get_value_fuel_stable (h : Hand) (f : ℕ) :
    get_value_fuel (f + 2) h = h.get_value := by
  by_cases hl : h.cards.length = 2
  · rw [get_value_fuel_none h hl]
    exact (get_value_fuel_none h hl 2).symm
  · exact (get_value_fuel_some h hl (f + 1)).trans (get_value_fuel_some h hl 1).symm

theorem get_value_eq (h : Hand) :
    h.get_value = if h.cards.length = 2 then none else some (h.value, false) := by
  by_cases hl : h.cards.length = 2
  · rw [if_pos hl]
    exact get_value_fuel_none h hl 2
  · rw [if_neg hl]
    exact get_value_fuel_some h hl 1

theorem is_blackjack_eq (h : Hand) :
    h.is_blackjack = if h.cards.length = 2 then none else some false := by
  by_cases hl : h.cards.length = 2 <;> simp [Hand.is_blackjack, get_value_eq, hl]

theorem is_busted_eq (h : Hand) :
    h.is_busted = if h.cards.length = 2 then none
      else some (decide (21 < h.value)) := by
  by_cases hl : h.cards.length = 2 <;> simp [Hand.is_busted, get_value_eq, hl]

theorem is_done_eq (h : Hand) :
    h.is_done = if h.cards.length = 2 then none
      else some (decide (21 < h.value) || h.is_surrendered || h.took_even_money ||
        (h.is_doubled && decide (2 < h.cards.length)) ||
        (h.split_from_aces && decide (1 < h.cards.length))) := by
  by_cases hl : h.cards.length = 2
  · simp [Hand.is_done, is_busted_eq, hl]
  · cases hb : decide (21 < h.value) with
    | false => simp [Hand.is_done, is_busted_eq, is_blackjack_eq, hl, hb]
    | true => simp [Hand.is_done, is_busted_eq, is_blackjack_eq, hl, hb]

/-! ### Claim C8: hand valuation, softness and bust classification -/

def c8hand : Hand :=
  { cards := [⟨.spades, .ace⟩, ⟨.diamonds, .king⟩], bet := 10, original_bet := 10 }

/-- Claim C8 fails on the code: get_value and is_blackjack re-enter each
other without progress on every two-card hand, so get_value (and with it
is_busted) never returns there — e.g. on the two-card hand ace-king —
while on every other hand the returned value is exactly the claimed
non-ace sum plus one per ace, promoted by 10 when an ace is present and
that stays within 21, the soft classification is exactly an ace being
present with the low total plus 10 at most 21, and is_busted is exactly
the value-above-21 test. -/
theorem C8_get_value_crashes :
    (∀ h : Hand, h.get_value =
      if h.cards.length = 2 then none
      else some ((if 0 < h.aces ∧ h.non_ace_value + h.aces + 10 ≤ 21
        then h.non_ace_value + h.aces + 10
        else h.non_ace_value + h.aces), false)) ∧
    (∀ h : Hand, h.is_soft = true ↔
      0 < h.aces ∧ h.non_ace_value + h.aces + 10 ≤ 21) ∧
    (∀ h : Hand, h.is_busted =
      if h.cards.length = 2 then none else some (decide (21 < h.value))) ∧
    c8hand.cards.length = 2 ∧ c8hand.get_value = none ∧ c8hand.is_busted = none := by
  refine ⟨fun h => get_value_eq h, fun h => ?_, fun h => is_busted_eq h, rfl, rfl, rfl⟩
  simp only [Hand.is_soft, Bool.and_eq_true, decide_eq_true_eq]
  omega

/-! ### Claim C7: ace-split hands after one more card -/

def c7hand : Hand :=
  { cards := [⟨.spades, .ace⟩, ⟨.diamonds, .r5⟩], bet := 10,
    original_bet := 10, is_split := true, split_from_aces := true }

def c7hand3 : Hand :=
  { cards := [⟨.spades, .ace⟩, ⟨.diamonds, .r5⟩, ⟨.clubs, .r3⟩], bet := 10,
    original_bet := 10, is_split := true, split_from_aces := true }

/-- Claim C7 fails on the code at its central case: on an ace-split hand
holding the one card it was dealt after the split plus its ace (two
cards), is_done raises in its leading is_busted() valuation before the
split_from_aces disjunct is reached, and add_card raises the same way
instead of returning failure; only on three or more cards (a state this
rule exists to prevent) do is_done and add_card behave as claimed. -/
theorem C7_split_aces_crash :
    c7hand.split_from_aces = true ∧ c7hand.cards.length = 2 ∧
    c7hand.is_done = none ∧ (∀ c : Card, c7hand.add_card c = none) ∧
    c7hand3.split_from_aces = true ∧ c7hand3.cards.length = 3 ∧
    c7hand3.is_done = some true ∧
    (∀ c : Card, c7hand3.add_card c = some (false, c7hand3)) := by
  have h2 : c7hand.is_done = none := rfl
  have h3 : c7hand3.is_done = some true := rfl
  refine ⟨rfl, rfl, h2, fun c => ?_, rfl, rfl, h3, fun c => ?_⟩
  · unfold Hand.add_card
    rw [h2]
  · unfold Hand.add_card
    rw [h3]

/-! ### Claim C6: natural against natural -/

def c6player : Hand :=
  { cards := [⟨.spades, .ace⟩, ⟨.diamonds, .king⟩], bet := 25, original_bet := 25 }

def c6game : Game :=
  { rules := {},
    deck := { rules := {}, shuffle := id, cards := [⟨.clubs, .r2⟩], discard_pile := [] },
    player := { bankroll := 975, hands := [c6player] },
    dealer_hand := { cards := [⟨.hearts, .ace⟩, ⟨.clubs, .queen⟩] },
    round_state := .playerTurn }

/-- Claim C6 fails on the code: resolve_hand on an unsurrendered
two-card 21 (ace-king) against a two-card dealer 21 (ace-queen) raises in
its first hand.get_value() call — the valuation recursion — and never
returns Push at the bet. -/
theorem C6_resolve_crashes :
    c6player.cards.length = 2 ∧ c6player.is_surrendered = false ∧
    c6game.dealer_hand.cards.length = 2 ∧
    c6game.resolve_hand c6player = none :=
  ⟨rfl, rfl, rfl, rfl⟩

/-! ### Claims C2 and C9: the shoe -/

theorem freshCards_length (n : ℕ) : (freshCards n).length = n * 52 := by
  induction n with
  | zero => rfl
  | succ n ih =>
    have h52 : oneDeck.length = 52 := rfl
    simp only [freshCards, List.length_append, ih, h52]
    ring

/-- The pop-and-discard tail of Deck.draw on a nonempty undealt pile. -/
theorem popDraw_spec (d : Deck) (hne : d.cards ≠ []) :
    ∃ c d1, d.popDraw = some (c, d1) ∧ d.cards = d1.cards ++ [c] ∧
      d1.discard_pile = d.discard_pile ++ [c] ∧
      d1.rules = d.rules ∧ d1.shuffle = d.shuffle := by
  have h1 : d.cards.getLast? = some (d.cards.getLast hne) :=
    List.getLast?_eq_getLast_of_ne_nil hne
  refine ⟨d.cards.getLast hne,
    { d with cards := d.cards.dropLast,
             discard_pile := d.discard_pile ++ [d.cards.getLast hne] },
    ?_, ?_, rfl, rfl, rfl⟩
  · unfold Deck.popDraw
    rw [h1]
  · exact (List.dropLast_append_getLast hne).symm

/-- Claim C9: assuming the shoe invariant, draw never crashes, preserves
the invariant undealt + discard = decks * 52, and a successful draw moves
exactly one card from the tail of the undealt pile (the freshly shuffled
pile when a reshuffle fired) to the end of the discard pile. -/
theorem C9_shoe_invariant (d : Deck)
    (hlen : ∀ l, (d.shuffle l).length = l.length)
    (hinv : d.cards.length + d.discard_pile.length = d.rules.number_of_decks * 52) :
    ∃ res d1, d.draw = some (res, d1) ∧
      d1.cards.length + d1.discard_pile.length = d.rules.number_of_decks * 52 ∧
      ∀ c, res = some c →
        ∃ pre : Deck, (pre = d ∨ (d.cards = [] ∧ pre = d.reset)) ∧
          pre.cards = d1.cards ++ [c] ∧
          d1.discard_pile = pre.discard_pile ++ [c] := by
  by_cases hne : d.cards = []
  · have hE : d.cards.isEmpty = true := by simp [hne]
    have hD : d.discard_pile.length = d.rules.number_of_decks * 52 := by
      rw [hne] at hinv
      simpa using hinv
    unfold Deck.draw
    simp only [hE, if_true]
    split_ifs with hc
    · -- reshuffle branch
      have hrlen : d.reset.cards.length = d.rules.number_of_decks * 52 := by
        simp [Deck.reset, hlen, freshCards_length]
      have hrne : d.reset.cards ≠ [] := by
        intro h0
        rw [h0] at hrlen
        have hz : d.rules.number_of_decks * 52 = 0 := hrlen.symm
        rw [hne] at hc
        rw [hz] at hD
        simp only [List.length_nil, Nat.zero_add, hD, hz] at hc
        norm_num at hc
      obtain ⟨c, d1, hpop, hcards, hdisc, -, -⟩ := popDraw_spec d.reset hrne
      rw [hpop]
      refine ⟨some c, d1, rfl, ?_, ?_⟩
      · have : d1.cards.length + 1 = d.rules.number_of_decks * 52 := by
          rw [← hrlen, hcards]
          simp
        have hd1 : d1.discard_pile.length = 1 := by
          rw [hdisc]
          simp [Deck.reset]
        omega
      · intro c0 hc0
        refine ⟨d.reset, Or.inr ⟨hne, rfl⟩, ?_, ?_⟩
        · rw [hcards]
          cases hc0
          rfl
        · rw [hdisc]
          cases hc0
          simp [Deck.reset]
    · exact ⟨none, d, rfl, hinv, by intro c hc0; cases hc0⟩
  · have hE : d.cards.isEmpty = false := by simp [hne]
    obtain ⟨c, d1, hpop, hcards, hdisc, -, -⟩ := popDraw_spec d hne
    unfold Deck.draw
    simp only [hE, Bool.false_eq_true, if_false]
    rw [hpop]
    refine ⟨some c, d1, rfl, ?_, ?_⟩
    · have h1 : d.cards.length = d1.cards.length + 1 := by
        rw [hcards]
        simp
      have h2 : d1.discard_pile.length = d.discard_pile.length + 1 := by
        rw [hdisc]
        simp
      omega
    · intro c0 hc0
      cases hc0
      exact ⟨d, Or.inl rfl, hcards, hdisc⟩

def c9deck : Deck :=
  { rules := { number_of_decks := 1 }, shuffle := id,
    cards := freshCards 1, discard_pile := [] }

/-- Witness for C9 on a fresh one-deck shoe. -/
theorem C9_shoe_invariant_witness :
    ∃ res d1, c9deck.draw = some (res, d1) ∧
      d1.cards.length + d1.discard_pile.length = c9deck.rules.number_of_decks * 52 ∧
      ∀ c, res = some c →
        ∃ pre : Deck, (pre = c9deck ∨ (c9deck.cards = [] ∧ pre = c9deck.reset)) ∧
          pre.cards = d1.cards ++ [c] ∧
          d1.discard_pile = pre.discard_pile ++ [c] :=
  C9_shoe_invariant c9deck (fun _ => rfl) (by decide)

/-- Claim C2: on a draw against an empty undealt pile of a shoe
satisfying the invariant, the deck reshuffles (clearing the discard,
rebuilding and shuffling a full decks * 52 pile, and returning a card
from it) exactly when the discard size is below the full shoe size times
(1 - penetration), and otherwise the draw returns the exhausted result
None with the deck unchanged. -/
theorem C2_reshuffle_policy (d : Deck)
    (hlen : ∀ l, (d.shuffle l).length = l.length)
    (hinv : d.cards.length + d.discard_pile.length = d.rules.number_of_decks * 52)
    (hempty : d.cards = []) :
    (((d.discard_pile.length : ℚ) <
        ((d.rules.number_of_decks * 52 : ℕ) : ℚ) * (1 - d.rules.deck_penetration)) →
      ∃ c d1, d.draw = some (some c, d1) ∧
        d1.discard_pile = [c] ∧
        d.shuffle (freshCards d.rules.number_of_decks) = d1.cards ++ [c] ∧
        d1.cards.length + d1.discard_pile.length = d.rules.number_of_decks * 52) ∧
    (¬((d.discard_pile.length : ℚ) <
        ((d.rules.number_of_decks * 52 : ℕ) : ℚ) * (1 - d.rules.deck_penetration)) →
      d.draw = some (none, d)) := by
  have hE : d.cards.isEmpty = true := by simp [hempty]
  have hD : d.discard_pile.length = d.rules.number_of_decks * 52 := by
    rw [hempty] at hinv
    simpa using hinv
  have hcond : ((d.discard_pile.length : ℚ) <
      ((d.cards.length + d.discard_pile.length : ℕ) : ℚ) * (1 - d.rules.deck_penetration)) ↔
      ((d.discard_pile.length : ℚ) <
      ((d.rules.number_of_decks * 52 : ℕ) : ℚ) * (1 - d.rules.deck_penetration)) := by
    rw [hempty]
    simp only [List.length_nil, Nat.zero_add, hD]
  constructor
  · intro hc
    have hrlen : d.reset.cards.length = d.rules.number_of_decks * 52 := by
      simp [Deck.reset, hlen, freshCards_length]
    have hrne : d.reset.cards ≠ [] := by
      intro h0
      rw [h0] at hrlen
      have hz : d.rules.number_of_decks * 52 = 0 := hrlen.symm
      rw [hz] at hD hc
      rw [hD] at hc
      norm_num at hc
    obtain ⟨c, d1, hpop, hcards, hdisc, -, -⟩ := popDraw_spec d.reset hrne
    refine ⟨c, d1, ?_, ?_, ?_, ?_⟩
    · unfold Deck.draw
      simp only [hE, if_true]
      rw [if_pos (hcond.mpr hc), hpop]
    · rw [hdisc]
      simp [Deck.reset]
    · have : d.reset.cards = d.shuffle (freshCards d.rules.number_of_decks) := rfl
      rw [← this, hcards]
    · have h1 : d1.cards.length + 1 = d.rules.number_of_decks * 52 := by
        rw [← hrlen, hcards]
        simp
      have h2 : d1.discard_pile.length = 1 := by
        rw [hdisc]
        simp [Deck.reset]
      omega
  · intro hc
    unfold Deck.draw
    simp only [hE, if_true]
    rw [if_neg (fun h => hc (hcond.mp h))]

def c2deck : Deck :=
  { rules := { number_of_decks := 1 }, shuffle := id,
    cards := [], discard_pile := freshCards 1 }

/-- Witness for C2 on an emptied one-deck shoe at penetration 4/5: the
discard holds all 52 cards, the reshuffle condition fails, and the draw
reports exhaustion. -/
theorem C2_reshuffle_policy_witness : c2deck.draw = some (none, c2deck) :=
  (C2_reshuffle_policy c2deck (fun _ => rfl) (by decide) rfl).2 (by
    have h1 : c2deck.discard_pile.length = 52 := by decide
    have h2 : c2deck.rules.number_of_decks = 1 := rfl
    have h3 : c2deck.rules.deck_penetration = 4/5 := rfl
    rw [h1, h2, h3]
    norm_num)

/-! ### The validate_game_state decorator -/

/-- If the player is out of funds, every decorated call raises: either the
no-cards error (checked first) or the no-funds error. -/
theorem validate_bankrupt (g : Game) (f : FuncName)
    (hbr : g.player.bankroll ≤ 0) :
    ∃ e, validate_game_state g f = some e := by
  by_cases h : (g.deck.cards.isEmpty && g.deck.discard_pile.isEmpty) = true
  · exact ⟨.noCards, by simp [validate_game_state, h]⟩
  · rw [Bool.not_eq_true] at h
    exact ⟨.noFunds, by simp [validate_game_state, h, hbr]⟩

theorem validate_none_bankroll (g : Game) (f : FuncName)
    (h : validate_game_state g f = none) : 0 < g.player.bankroll := by
  by_contra hb
  push_neg at hb
  obtain ⟨e, he⟩ := validate_bankrupt g f hb
  rw [he] at h
  cases h

theorem validate_none_deck (g : Game) (f : FuncName)
    (h : validate_game_state g f = none) :
    (g.deck.cards.isEmpty && g.deck.discard_pile.isEmpty) = false := by
  by_cases hA : (g.deck.cards.isEmpty && g.deck.discard_pile.isEmpty) = true
  · have : validate_game_state g f = some .noCards := by
      simp [validate_game_state, hA]
    rw [this] at h
    cases h
  · simpa using hA

theorem validate_some_of_notStarted (g : Game) (f : FuncName)
    (hf1 : f ≠ .start_round) (hf2 : f ≠ .play_round)
    (hs : g.round_state = .notStarted) :
    ∃ e, validate_game_state g f = some e := by
  by_cases hA : (g.deck.cards.isEmpty && g.deck.discard_pile.isEmpty) = true
  · exact ⟨.noCards, by simp [validate_game_state, hA]⟩
  · rw [Bool.not_eq_true] at hA
    by_cases hB : g.player.bankroll ≤ 0
    · exact ⟨.noFunds, by simp [validate_game_state, hA, hB]⟩
    · exact ⟨.roundNotStarted, by simp [validate_game_state, hA, hB, hs, hf1, hf2]⟩

theorem validate_some_of_complete (g : Game) (f : FuncName)
    (hf1 : f ≠ .start_round) (hf2 : f ≠ .play_round)
    (hs : g.round_state = .complete) :
    ∃ e, validate_game_state g f = some e := by
  by_cases hA : (g.deck.cards.isEmpty && g.deck.discard_pile.isEmpty) = true
  · exact ⟨.noCards, by simp [validate_game_state, hA]⟩
  · rw [Bool.not_eq_true] at hA
    by_cases hB : g.player.bankroll ≤ 0
    · exact ⟨.noFunds, by simp [validate_game_state, hA, hB]⟩
    · exact ⟨.roundComplete, by simp [validate_game_state, hA, hB, hs, hf1, hf2]⟩

theorem validate_none_not_notStarted (g : Game) (f : FuncName)
    (hf1 : f ≠ .start_round) (hf2 : f ≠ .play_round)
    (h : validate_game_state g f = none) : g.round_state ≠ .notStarted := by
  intro hs
  obtain ⟨e, he⟩ := validate_some_of_notStarted g f hf1 hf2 hs
  rw [he] at h
  cases h

theorem validate_none_not_complete (g : Game) (f : FuncName)
    (hf1 : f ≠ .start_round) (hf2 : f ≠ .play_round)
    (h : validate_game_state g f = none) : g.round_state ≠ .complete := by
  intro hs
  obtain ⟨e, he⟩ := validate_some_of_complete g f hf1 hf2 hs
  rw [he] at h
  cases h

theorem validate_none_of (g : Game) (f : FuncName)
    (hA : (g.deck.cards.isEmpty && g.deck.discard_pile.isEmpty) = false)
    (hB : 0 < g.player.bankroll)
    (hC : g.round_state ≠ .notStarted)
    (hD : g.round_state ≠ .complete) :
    validate_game_state g f = none := by
  have hB1 : ¬ g.player.bankroll ≤ 0 := not_le.mpr hB
  by_cases hf : f = .start_round
  · simp [validate_game_state, hA, hB1, hf]
  · simp [validate_game_state, hA, hB1, hf, hC, hD]

/-! ### Claim C10: every decorated call raises when the bankroll is gone -/

/-- Claim C10: with bankroll at most 0, every state-validated round
operation (hit, double_down, split, surrender, place_insurance,
take_even_money, finish_round, play_round) returns a game error, whatever
the round state; in particular finish_round cannot be called without an
exception once wagers have emptied the bankroll. -/
theorem C10_no_funds_guard (g : Game) (i fuel : ℕ) (bet : ℚ)
    (hbr : g.player.bankroll ≤ 0) :
    (∃ e, g.hit i = some (.error e)) ∧
    (∃ e, g.double_down i = some (.error e)) ∧
    (∃ e, g.split i = some (.error e)) ∧
    (∃ e, g.surrender i = some (.error e)) ∧
    (∃ e, g.place_insurance i = some (.error e)) ∧
    (∃ e, g.take_even_money i = some (.error e)) ∧
    (∃ e, g.finish_round fuel = some (.error e)) ∧
    (∃ e, g.play_round fuel bet = some (.error e)) := by
  refine ⟨?_, ?_, ?_, ?_, ?_, ?_, ?_, ?_⟩
  · obtain ⟨e, he⟩ := validate_bankrupt g .hit hbr
    exact ⟨e, by unfold Game.hit; rw [he]⟩
  · obtain ⟨e, he⟩ := validate_bankrupt g .double_down hbr
    exact ⟨e, by unfold Game.double_down; rw [he]⟩
  · obtain ⟨e, he⟩ := validate_bankrupt g .split hbr
    exact ⟨e, by unfold Game.split; rw [he]⟩
  · obtain ⟨e, he⟩ := validate_bankrupt g .surrender hbr
    exact ⟨e, by unfold Game.surrender; rw [he]⟩
  · obtain ⟨e, he⟩ := validate_bankrupt g .place_insurance hbr
    exact ⟨e, by unfold Game.place_insurance; rw [he]⟩
  · obtain ⟨e, he⟩ := validate_bankrupt g .take_even_money hbr
    exact ⟨e, by unfold Game.take_even_money; rw [he]⟩
  · obtain ⟨e, he⟩ := validate_bankrupt g .finish_round hbr
    exact ⟨e, by unfold Game.finish_round; rw [he]⟩
  · obtain ⟨e, he⟩ := validate_bankrupt g .play_round hbr
    exact ⟨e, by unfold Game.play_round; rw [he]⟩

def c10hand : Hand :=
  { cards := [⟨.spades, .r5⟩, ⟨.diamonds, .r6⟩], bet := 10,
    original_bet := 10, is_doubled := true }

def c10game : Game :=
  { rules := {},
    deck := { rules := {}, shuffle := id, cards := [⟨.clubs, .r2⟩, ⟨.hearts, .r3⟩], discard_pile := [] },
    player := { bankroll := 0, hands := [c10hand] },
    dealer_hand := { cards := [⟨.hearts, .r9⟩, ⟨.clubs, .r8⟩] },
    round_state := .playerTurn }

/-- Witness for C10 on a mid-round PlayerTurn state whose double has just
taken the bankroll to exactly 0. -/
theorem C10_no_funds_guard_witness :
    (∃ e, c10game.hit 0 = some (.error e)) ∧
    (∃ e, c10game.double_down 0 = some (.error e)) ∧
    (∃ e, c10game.split 0 = some (.error e)) ∧
    (∃ e, c10game.surrender 0 = some (.error e)) ∧
    (∃ e, c10game.place_insurance 0 = some (.error e)) ∧
    (∃ e, c10game.take_even_money 0 = some (.error e)) ∧
    (∃ e, c10game.finish_round 1 = some (.error e)) ∧
    (∃ e, c10game.play_round 1 10 = some (.error e)) :=
  C10_no_funds_guard c10game 0 1 10 (by decide)

/-! ### Claim C4: the start_round state check -/

/-- Amended claim C4: once the decorator checks pass, start_round raises
the invalid-state error (Previous round not complete) exactly when the
round state differs from NotStarted — so in particular a Complete state
also raises it rather than proceeding to bet validation and dealing. -/
theorem C4_start_round_state_guard (g : Game) (bet : ℚ)
    (hval : validate_game_state g .start_round = none) :
    (g.round_state ≠ .notStarted →
      g.start_round bet = some (.error .previousRoundNotComplete)) ∧
    (g.round_state = .notStarted →
      g.start_round bet ≠ some (.error .previousRoundNotComplete)) := by
  constructor
  · intro hst
    unfold Game.start_round
    rw [hval]
    simp [hst]
  · intro hst
    unfold Game.start_round
    rw [hval, if_neg (by simp [hst])]
    split_ifs with h1 h2
    · simp
    · simp
    · rcases hp : g.player.place_bet bet with - | ⟨b, p1⟩
      · simp [hp]
      · cases b
        · simp [hp]
        · rcases hd : Game.deal_initial_cards { g with player := p1 } with - | ⟨ok, g1⟩
          · simp [hp, hd]
          · cases ok <;> simp [hp, hd]

def c4game : Game :=
  { rules := {},
    deck := { rules := {}, shuffle := id, cards := [⟨.clubs, .r2⟩, ⟨.hearts, .r3⟩], discard_pile := [] },
    player := { bankroll := 1000 },
    dealer_hand := {},
    round_state := .complete }

/-- Counterexample to claim C4 as stated: on a Complete round state,
start_round does fail with the invalid-state error instead of proceeding
to bet validation and dealing. -/
theorem C4_counterexample :
    c4game.start_round 10 = some (.error .previousRoundNotComplete) := by
  rfl

def c4okgame : Game :=
  { rules := {},
    deck := { rules := {}, shuffle := id, cards := [⟨.clubs, .r2⟩, ⟨.hearts, .r3⟩], discard_pile := [] },
    player := { bankroll := 1000 },
    dealer_hand := {},
    round_state := .notStarted }

/-- Witness for the amended C4: the guard fires on a Complete state and
does not fire on a NotStarted state. -/
theorem C4_start_round_state_guard_witness :
    c4game.start_round 10 = some (.error .previousRoundNotComplete) ∧
    c4okgame.start_round 10 ≠ some (.error .previousRoundNotComplete) :=
  ⟨(C4_start_round_state_guard c4game 10 rfl).1 (by decide),
   (C4_start_round_state_guard c4okgame 10 rfl).2 rfl⟩

/-! ### Claim C1: early-settled hands in finish_round -/

def c1hand : Hand :=
  { cards := [⟨.spades, .r10⟩, ⟨.diamonds, .r6⟩], bet := 10, original_bet := 10 }

def c1game : Game :=
  { rules := {},
    deck := { rules := {}, shuffle := id, cards := [⟨.clubs, .r2⟩, ⟨.hearts, .r3⟩], discard_pile := [⟨.clubs, .r5⟩] },
    player := { bankroll := 990, hands := [c1hand] },
    dealer_hand := { cards := [⟨.hearts, .r9⟩, ⟨.clubs, .r8⟩] },
    round_state := .playerTurn }

/-- Claim C1 fails on the code, which cannot even settle a surrender
once: with the validator passing and can_surrender true on the two-card
ten-six (the only shape can_surrender admits), surrender() flags the
hand and credits the half bet but then raises RecursionError inside
update_stats — whose round_events append renders str(hand) on the
two-card hand — before hands_played is incremented, so the call never
returns and no exactly-once settlement (nor the later finish_round skip)
ever happens. -/
theorem C1_surrender_crashes :
    validate_game_state c1game .surrender = none ∧
    c1hand.can_surrender c1game.rules = true ∧
    c1game.surrender 0 = none :=
  ⟨rfl, rfl, rfl⟩

/-! ### Claim C3: dead-hand settlement -/

def c3hand : Hand :=
  { cards := [⟨.spades, .r10⟩, ⟨.diamonds, .r3⟩, ⟨.clubs, .r3⟩], bet := 10,
    original_bet := 10 }

def c3deck : Deck :=
  { rules := {}, shuffle := id, cards := [], discard_pile := [⟨.clubs, .r5⟩] }

def c3game : Game :=
  { rules := {}, deck := c3deck,
    player := { bankroll := 990, hands := [c3hand] },
    dealer_hand := { cards := [⟨.hearts, .r9⟩, ⟨.clubs, .r5⟩] },
    round_state := .playerTurn }

/-- Claim C3 fails on the code: on a mid-round state over an exhausted
shoe with an undone three-card 16 against a two-card dealer 14,
finish_round passes its validator and sees the unresolved hand, but then
raises RecursionError at the dealer hand's first get_value inside
play_dealer_hand — before the starved draw could even be observed — so
the promised raise-free Push settlement never happens (and with any
two-card player hand it would already raise inside the all(is_done)
generator; the dealer hand, dealt exactly two cards, always triggers
this). -/
theorem C3_finish_round_crashes :
    validate_game_state c3game .finish_round = none ∧
    allDone c3game.player.hands = some false ∧
    c3game.dealer_hand.cards.length = 2 ∧
    c3game.finish_round 1 = none :=
  ⟨rfl, rfl, rfl, rfl⟩

/-! ### Claim C5: failed draws inside split and double_down -/

theorem setHand_deck (g : Game) (i : ℕ) (h : Hand) :
    (g.setHand i h).deck = g.deck := rfl

/-- What split actually does when its first draw is unavailable: it
returns failure, but the original hand has already lost its second card
and gained the split flags, and that mutated hand stays in the player's
hand list.  (The fresh one-card split-off hand passes its add_card
valuation; only the original is mutated before the draw.) -/
theorem split_draw1_fails (g : Game) (i : ℕ) (h : Hand) (c0 c1 : Card) (d : Deck)
    (hv : validate_game_state g .split = none)
    (hmax : decide (g.rules.max_splits + 1 ≤ g.player.hands.length) = false)
    (hh : g.player.hands[i]? = some h)
    (hc : h.cards = [c0, c1])
    (hcs : h.can_split g.rules = true)
    (hbr : decide (g.player.bankroll < h.original_bet) = false)
    (hdraw : g.deck.draw = some (none, d)) :
    g.split i = some (.ok (false,
      { g.setHand i
          { cards := [c0], bet := h.bet, is_split := true,
            is_doubled := h.is_doubled, is_surrendered := h.is_surrendered,
            original_bet := h.original_bet,
            split_from_aces := (decide (c0.rank = Rank.ace) || h.split_from_aces),
            insurance_bet := h.insurance_bet,
            took_even_money := h.took_even_money }
        with deck := d })) := by
  unfold Game.split
  rw [hv, hmax, hh]
  have hadd : Hand.add_card
      { bet := h.original_bet, original_bet := h.original_bet, is_split := true } c1
      = some (true,
        { cards := [c1], bet := h.original_bet,
          original_bet := h.original_bet, is_split := true }) := rfl
  simp only [Bool.false_eq_true, if_false, hcs, Bool.not_true, hbr, hc,
    show ([c0, c1] : List Card).getLast? = some c1 from rfl,
    hadd,
    show ([c0, c1] : List Card).dropLast = [c0] from rfl,
    show ([c0] : List Card).head? = some c0 from rfl,
    setHand_deck, hdraw]
  by_cases hA : c0.rank = Rank.ace <;> simp [hA]

/-- What double_down actually does once its checks pass: can_double has
required exactly two cards, so after the bankroll debit, the doubled
flagged bet and the statistics bump, the internal hit raises
RecursionError at the hand's leading is_done() valuation — before any
draw — and the call never returns. -/
theorem double_down_crashes (q : Game) (j : ℕ) (hq : Hand)
    (hv : validate_game_state q .double_down = none)
    (hh : q.player.hands[j]? = some hq)
    (hcd : hq.can_double q.rules = true)
    (hbr : decide (q.player.bankroll < hq.bet) = false)
    (hpos : 0 < q.player.bankroll - hq.bet) :
    q.double_down j = none := by
  have hlen : hq.cards.length = 2 := by
    have h2 := hcd
    simp only [Hand.can_double, Bool.and_eq_true, decide_eq_true_eq] at h2
    exact h2.1.1.1
  have hdone1 : Hand.is_done { hq with bet := hq.bet * 2, is_doubled := true } = none := by
    rw [is_done_eq]
    simp [hlen]
  have hj : j < q.player.hands.length := (List.getElem?_eq_some.mp hh).1
  have hvh : validate_game_state
      { q with player := { q.player with
          bankroll := q.player.bankroll - hq.bet,
          hands := q.player.hands.set j { hq with bet := hq.bet * 2, is_doubled := true },
          stats := { q.player.stats with
            doubles := q.player.stats.doubles + 1,
            wagers := { q.player.stats.wagers with
              additional_wagers :=
                q.player.stats.wagers.additional_wagers + hq.original_bet } } } }
      .hit = none :=
    validate_none_of _ _ (validate_none_deck q .double_down hv) hpos
      (validate_none_not_notStarted q .double_down (by simp) (by simp) hv)
      (validate_none_not_complete q .double_down (by simp) (by simp) hv)
  unfold Game.double_down
  rw [hv, hh]
  simp only [hcd, Bool.not_true, hbr, Bool.or_self, Bool.false_eq_true, if_false]
  unfold Game.hit
  rw [hvh]
  simp only [List.getElem?_set, hj, if_pos, if_true, hdone1]

def c5hand : Hand :=
  { cards := [⟨.spades, .r8⟩, ⟨.diamonds, .r8⟩], bet := 10, original_bet := 10 }

def c5deck : Deck :=
  { rules := {}, shuffle := id, cards := [], discard_pile := [⟨.clubs, .r2⟩] }

def c5game : Game :=
  { rules := {}, deck := c5deck,
    player := { bankroll := 100, hands := [c5hand] },
    dealer_hand := { cards := [⟨.hearts, .r9⟩, ⟨.clubs, .r7⟩] },
    round_state := .playerTurn }

theorem c5_draw_none : c5deck.draw = some (none, c5deck) := by
  unfold Deck.draw
  norm_num [c5deck]

def c5hand1 : Hand :=
  { cards := [⟨.spades, .r8⟩], bet := 10, original_bet := 10, is_split := true }

def c5game1 : Game :=
  { rules := {}, deck := c5deck,
    player := { bankroll := 100, hands := [c5hand1] },
    dealer_hand := { cards := [⟨.hearts, .r9⟩, ⟨.clubs, .r7⟩] },
    round_state := .playerTurn }

/-- Counterexample to claim C5 as stated: on a pair of eights whose first
replacement draw is unavailable, split returns failure yet the player's
hand is not as before — it has lost its second card and acquired the
is_split flag (bankroll and statistics are untouched). -/
theorem C5_counterexample :
    c5game.split 0 = some (.ok (false, c5game1)) ∧
    c5game.player.hands = [c5hand] ∧
    c5hand.cards.length = 2 ∧ c5hand.is_split = false ∧
    c5game1.player.hands = [c5hand1] ∧
    c5hand1.cards.length = 1 ∧ c5hand1.is_split = true ∧
    c5game1.player.bankroll = c5game.player.bankroll ∧
    c5game1.player.stats = c5game.player.stats := by
  have h := split_draw1_fails c5game 0 c5hand ⟨.spades, .r8⟩ ⟨.diamonds, .r8⟩
    c5deck rfl rfl rfl rfl rfl rfl c5_draw_none
  exact ⟨h, rfl, rfl, rfl, rfl, rfl, rfl, rfl, rfl⟩

/-- Amended claim C5: when split's first replacement draw is unavailable,
split returns failure but does not roll back — the original hand is left
with just its first card and the split flags set, while bankroll,
statistics and the hand-list length are unchanged.  Atomicity fails for
double_down differently: past its checks it never reports its draw's
failure (or success) at all, because its internal hit raises
RecursionError at the two-card hand's is_done valuation — before any
draw — after the bankroll was debited, the bet doubled and flagged, and
the double statistics bumped. -/
theorem C5_failed_draw_not_atomic (g q : Game) (i j : ℕ) (h hq : Hand)
    (c0 c1 : Card) (d : Deck)
    (hv : validate_game_state g .split = none)
    (hmax : decide (g.rules.max_splits + 1 ≤ g.player.hands.length) = false)
    (hh : g.player.hands[i]? = some h)
    (hc : h.cards = [c0, c1])
    (hcs : h.can_split g.rules = true)
    (hbr : decide (g.player.bankroll < h.original_bet) = false)
    (hdraw : g.deck.draw = some (none, d))
    (hvq : validate_game_state q .double_down = none)
    (hhq : q.player.hands[j]? = some hq)
    (hcd : hq.can_double q.rules = true)
    (hbq : decide (q.player.bankroll < hq.bet) = false)
    (hpos : 0 < q.player.bankroll - hq.bet) :
    (∃ g1 h1, g.split i = some (.ok (false, g1)) ∧
      g1.player.hands[i]? = some h1 ∧
      h1.cards = [c0] ∧ h1.is_split = true ∧
      g1.player.bankroll = g.player.bankroll ∧
      g1.player.stats = g.player.stats ∧
      g1.player.hands.length = g.player.hands.length ∧
      g1.deck = d) ∧
    q.double_down j = none := by
  have hi : i < g.player.hands.length := (List.getElem?_eq_some.mp hh).1
  constructor
  · refine ⟨_,
      { cards := [c0], bet := h.bet, is_split := true,
        is_doubled := h.is_doubled, is_surrendered := h.is_surrendered,
        original_bet := h.original_bet,
        split_from_aces := (decide (c0.rank = Rank.ace) || h.split_from_aces),
        insurance_bet := h.insurance_bet, took_even_money := h.took_even_money },
      split_draw1_fails g i h c0 c1 d hv hmax hh hc hcs hbr hdraw,
      ?_, rfl, rfl, rfl, rfl, ?_, rfl⟩
    · simp [Game.setHand, List.getElem?_set, hi]
    · simp [Game.setHand]
  · exact double_down_crashes q j hq hvq hhq hcd hbq hpos

def c5dhand : Hand :=
  { cards := [⟨.spades, .r5⟩, ⟨.diamonds, .r6⟩], bet := 10, original_bet := 10 }

def c5dgame : Game :=
  { rules := {}, deck := c5deck,
    player := { bankroll := 30, hands := [c5dhand] },
    dealer_hand := { cards := [⟨.hearts, .r9⟩, ⟨.clubs, .r7⟩] },
    round_state := .playerTurn }

/-- Witness for the amended C5 at a pair of eights over an exhausted shoe
(split) and a two-card 5-6 hand with bankroll 30 against bet 10
(double_down). -/
theorem C5_failed_draw_not_atomic_witness :
    (∃ g1 h1, c5game.split 0 = some (.ok (false, g1)) ∧
      g1.player.hands[0]? = some h1 ∧
      h1.cards = [(⟨.spades, .r8⟩ : Card)] ∧ h1.is_split = true ∧
      g1.player.bankroll = c5game.player.bankroll ∧
      g1.player.stats = c5game.player.stats ∧
      g1.player.hands.length = c5game.player.hands.length ∧
      g1.deck = c5deck) ∧
    c5dgame.double_down 0 = none :=
  C5_failed_draw_not_atomic c5game c5dgame 0 0 c5hand c5dhand
    ⟨.spades, .r8⟩ ⟨.diamonds, .r8⟩ c5deck
    rfl rfl rfl rfl rfl rfl c5_draw_none
    rfl rfl rfl rfl (by norm_num [c5dgame, c5dhand])

end BJ
